import Mathlib

/-!
Shallow embedding of the foundryvtt-gold-api-relay core: the pending-request
table and response dispatch (`src/routes/api.ts` = `src/unnamed/part_000`),
the shared route helper, sanitizer and routers (`src/unnamed/part_001`), and
the peer-side collection logic (`src/scripts/module.js`).

JSON values are modelled by the inductive `JVal`; JSON numbers are modelled
as integers (no claim depends on fractional values).  JavaScript objects are
modelled as association lists in insertion order with unique keys, matching
`JSON.parse` output; `setField` mirrors JS property assignment (overwrite in
place, else append).
-/

set_option linter.unusedVariables false
set_option linter.unnecessarySimpa false

/-- A JSON value.  `null` also stands for JS `undefined` where a present
field is distinguished from an absent one by `Option JVal`. -/
inductive JVal : Type where
  | null : JVal
  | bool : Bool → JVal
  | num : Int → JVal
  | str : String → JVal
  | arr : List JVal → JVal
  | obj : List (String × JVal) → JVal

/-- A JS object: fields in insertion order. -/
abbrev JObj := List (String × JVal)

/-- Property read `o[k]`: first (unique) occurrence. -/
def getField (o : JObj) (k : String) : Option JVal :=
  (o.find? (fun kv => kv.1 == k)).map (·.2)

/-- Property assignment `o[k] = v`: overwrite in place, else append. -/
def setField : JObj → String → JVal → JObj
  | [], k, v => [(k, v)]
  | (k', v') :: rest, k, v =>
    if k' == k then (k, v) :: rest else (k', v') :: setField rest k v

/-- Rest-destructuring that drops key `k` (`const {k: _, ...rest} = o`). -/
def deleteField (o : JObj) (k : String) : JObj :=
  o.filter (fun kv => kv.1 != k)

/-- JavaScript truthiness of a value. -/
def jvalTruthy : JVal → Bool
  | .null => false
  | .bool b => b
  | .num n => n != 0
  | .str s => s ≠ ""
  | .arr _ => true
  | .obj _ => true

/-- Truthiness of a possibly-absent field (`undefined` is falsy). -/
def truthy : Option JVal → Bool
  | none => false
  | some v => jvalTruthy v

/-- `a || b` on an optional string field (empty string is falsy). -/
def jsOrStr (a : Option String) (b : String) : String :=
  match a with
  | some s => if s == "" then b else s
  | none => b

mutual

/-- JS `String(v)` / template-literal conversion. -/
def jsToString : JVal → String
  | .null => "null"
  | .bool b => if b then "true" else "false"
  | .num n => toString n
  | .str s => s
  | .arr xs => jsToStringArr xs
  | .obj _ => "[object Object]"

/-- `Array.prototype.toString`: elements joined by commas, `null` and
`undefined` elements becoming empty strings. -/
def jsToStringArr : List JVal → String
  | [] => ""
  | [.null] => ""
  | [x] => jsToString x
  | .null :: xs => "," ++ jsToStringArr xs
  | x :: xs => jsToString x ++ "," ++ jsToStringArr xs

end

/-- `String.prototype.split(',')`, accumulator-based. -/
def splitCommaAux : List Char → List Char → List String
  | [], acc => [String.mk acc.reverse]
  | c :: cs, acc =>
    if c = ',' then String.mk acc.reverse :: splitCommaAux cs []
    else splitCommaAux cs (c :: acc)

/-- `s.split(',')`. -/
def splitComma (s : String) : List String :=
  splitCommaAux s.data []

/-- The keys `sanitizeResponse` must strip (part_001 line 231). -/
def sensitiveKey (k : String) : Bool :=
  k == "privateKey" || k == "apiKey" || k == "password"

mutual

/-- `removeSensitiveKeys` from `sanitizeResponse` (part_001 lines 220-236):
deep clone dropping the keys `privateKey`, `apiKey`, `password`. -/
def removeSensitiveKeys : JVal → JVal
  | .null => .null
  | .bool b => .bool b
  | .num n => .num n
  | .str s => .str s
  | .arr xs => .arr (removeSensitiveKeysList xs)
  | .obj fs => .obj (removeSensitiveKeysObj fs)

/-- `removeSensitiveKeys` mapped over an array. -/
def removeSensitiveKeysList : List JVal → List JVal
  | [] => []
  | x :: xs => removeSensitiveKeys x :: removeSensitiveKeysList xs

/-- `removeSensitiveKeys` over the entries of an object. -/
def removeSensitiveKeysObj : JObj → JObj
  | [] => []
  | (k, v) :: fs =>
    if sensitiveKey k then removeSensitiveKeysObj fs
    else (k, removeSensitiveKeys v) :: removeSensitiveKeysObj fs

end

/-- `sanitizeResponse` (part_001 lines 210-239): identity on `null` and
non-objects, otherwise `removeSensitiveKeys`. -/
def sanitizeResponse : JVal → JVal
  | .null => .null
  | .bool b => .bool b
  | .num n => .num n
  | .str s => .str s
  | .arr xs => removeSensitiveKeys (.arr xs)
  | .obj fs => removeSensitiveKeys (.obj fs)

mutual

/-- Whether a sensitive key occurs at any nesting depth. -/
def hasSensitive : JVal → Bool
  | .null => false
  | .bool _ => false
  | .num _ => false
  | .str _ => false
  | .arr xs => hasSensitiveList xs
  | .obj fs => hasSensitiveObj fs

/-- `hasSensitive` over an array. -/
def hasSensitiveList : List JVal → Bool
  | [] => false
  | x :: xs => hasSensitive x || hasSensitiveList xs

/-- `hasSensitive` over object entries. -/
def hasSensitiveObj : JObj → Bool
  | [] => false
  | (k, v) :: fs => sensitiveKey k || hasSensitive v || hasSensitiveObj fs

end

mutual

theorem hasSensitive_removeSensitiveKeys :
    (v : JVal) → hasSensitive (removeSensitiveKeys v) = false
  | .null => rfl
  | .bool _ => rfl
  | .num _ => rfl
  | .str _ => rfl
  | .arr xs => by
      simp [removeSensitiveKeys, hasSensitive,
        hasSensitiveList_removeSensitiveKeysList xs]
  | .obj fs => by
      simp [removeSensitiveKeys, hasSensitive,
        hasSensitiveObj_removeSensitiveKeysObj fs]

theorem hasSensitiveList_removeSensitiveKeysList :
    (xs : List JVal) → hasSensitiveList (removeSensitiveKeysList xs) = false
  | [] => rfl
  | x :: xs => by
      simp [removeSensitiveKeysList, hasSensitiveList,
        hasSensitive_removeSensitiveKeys x,
        hasSensitiveList_removeSensitiveKeysList xs]

theorem hasSensitiveObj_removeSensitiveKeysObj :
    (fs : JObj) → hasSensitiveObj (removeSensitiveKeysObj fs) = false
  | [] => rfl
  | (k, v) :: fs => by
      by_cases hk : sensitiveKey k
      · simp [removeSensitiveKeysObj, hk,
          hasSensitiveObj_removeSensitiveKeysObj fs]
      · simp [removeSensitiveKeysObj, hk, hasSensitiveObj,
          hasSensitive_removeSensitiveKeys v,
          hasSensitiveObj_removeSensitiveKeysObj fs]

end

mutual

theorem removeSensitiveKeys_of_clean :
    (v : JVal) → hasSensitive v = false → removeSensitiveKeys v = v
  | .null, _ => rfl
  | .bool _, _ => rfl
  | .num _, _ => rfl
  | .str _, _ => rfl
  | .arr xs, h => by
      simp only [hasSensitive] at h
      simp [removeSensitiveKeys, removeSensitiveKeysList_of_clean xs h]
  | .obj fs, h => by
      simp only [hasSensitive] at h
      simp [removeSensitiveKeys, removeSensitiveKeysObj_of_clean fs h]

theorem removeSensitiveKeysList_of_clean :
    (xs : List JVal) → hasSensitiveList xs = false →
      removeSensitiveKeysList xs = xs
  | [], _ => rfl
  | x :: xs, h => by
      simp only [hasSensitiveList, Bool.or_eq_false_iff] at h
      simp [removeSensitiveKeysList, removeSensitiveKeys_of_clean x h.1,
        removeSensitiveKeysList_of_clean xs h.2]

theorem removeSensitiveKeysObj_of_clean :
    (fs : JObj) → hasSensitiveObj fs = false →
      removeSensitiveKeysObj fs = fs
  | [], _ => rfl
  | (k, v) :: fs, h => by
      simp only [hasSensitiveObj, Bool.or_eq_false_iff] at h
      simp [removeSensitiveKeysObj, h.1.1,
        removeSensitiveKeys_of_clean v h.1.2,
        removeSensitiveKeysObj_of_clean fs h.2]

end

theorem sanitizeResponse_eq_removeSensitiveKeys (v : JVal) :
    sanitizeResponse v = removeSensitiveKeys v := by
  cases v <;> rfl

theorem hasSensitive_sanitizeResponse (v : JVal) :
    hasSensitive (sanitizeResponse v) = false := by
  rw [sanitizeResponse_eq_removeSensitiveKeys]
  exact hasSensitive_removeSensitiveKeys v

theorem sanitizeResponse_of_clean (v : JVal) (h : hasSensitive v = false) :
    sanitizeResponse v = v := by
  rw [sanitizeResponse_eq_removeSensitiveKeys]
  exact removeSensitiveKeys_of_clean v h

@[simp]
theorem getField_cons (k' : String) (v' : JVal) (o : JObj) (k : String) :
    getField ((k', v') :: o) k =
      if k' == k then some v' else getField o k := by
  by_cases h : (k' == k) = true
  · simp [getField, List.find?, h]
  · have h' : (k' == k) = false := by simpa using h
    simp [getField, List.find?, h']

theorem getField_removeSensitiveKeysObj_sensitive (fs : JObj) (k : String)
    (hk : sensitiveKey k = true) :
    getField (removeSensitiveKeysObj fs) k = none := by
  induction fs with
  | nil => rfl
  | cons kv fs ih =>
    obtain ⟨k', v'⟩ := kv
    by_cases h : sensitiveKey k' = true
    · simpa [removeSensitiveKeysObj, h] using ih
    · have hne : (k' == k) = false := by
        cases hkk : k' == k with
        | false => rfl
        | true =>
          exact absurd (show sensitiveKey k' = true by
            rw [eq_of_beq hkk]; exact hk) h
      simp only [removeSensitiveKeysObj, h, if_false, Bool.false_eq_true]
      rw [getField_cons]
      simp [hne, ih]

theorem getField_removeSensitiveKeysObj_clean (fs : JObj) (k : String)
    (hk : sensitiveKey k = false) :
    getField (removeSensitiveKeysObj fs) k =
      (getField fs k).map removeSensitiveKeys := by
  induction fs with
  | nil => rfl
  | cons kv fs ih =>
    obtain ⟨k', v'⟩ := kv
    by_cases h : sensitiveKey k' = true
    · have hne : (k' == k) = false := by
        cases hkk : k' == k with
        | false => rfl
        | true =>
          exact absurd (show sensitiveKey k = true by
            rw [← eq_of_beq hkk]; exact h) (by simp [hk])
      simp [removeSensitiveKeysObj, h, hne, ih]
    · by_cases hkk : (k' == k) = true
      · simp [removeSensitiveKeysObj, h, hkk]
      · have hne : (k' == k) = false := by simpa using hkk
        simp [removeSensitiveKeysObj, h, hne, ih]

/-- An Express response handle: an identity plus whether headers were
already written (`res.headersSent`). -/
structure Res where
  id : Nat
  headersSent : Bool

/-- One JSON body written to an HTTP caller. -/
structure HttpWrite where
  resId : Nat
  status : Nat
  body : JVal

/-- `safeResponse` (part_001 lines 241-248): no-op when headers were already
sent, otherwise writes `statusCode` with the sanitized body. -/
def safeResponse (res : Res) (statusCode : Nat) (data : JVal) :
    Option HttpWrite :=
  if res.headersSent then none
  else some ⟨res.id, statusCode, sanitizeResponse data⟩

/-- `PENDING_REQUEST_TYPES` (part_001 lines 250-258). -/
def PENDING_REQUEST_TYPES : List String :=
  ["search", "entity", "structure", "contents", "create", "update", "delete",
   "rolls", "last-roll", "roll", "get-sheet", "macro-execute", "macros",
   "encounters", "start-encounter", "next-turn", "next-round", "last-turn",
   "last-round", "end-encounter", "add-to-encounter", "remove-from-encounter",
   "kill", "decrease", "increase", "give", "remove", "execute-js",
   "select", "selected", "file-system", "upload-file", "download-file",
   "get-actor-details", "modify-item-charges", "use-ability", "use-feature",
   "use-spell", "use-item", "modify-experience", "add-item", "remove-item",
   "get-folder", "create-folder", "delete-folder", "chat-messages", "chat"]

/-- `REQUEST_TYPES_WITH_SPECIAL_RESPONSE_HANDLERS` (part_000 lines 344-346). -/
def REQUEST_TYPES_WITH_SPECIAL_RESPONSE_HANDLERS : List String :=
  ["actor-sheet", "download-file"]

/-- Whether `setupMessageHandlers` registers the generic `t-result` handler
for request type `t` (part_000 lines 351-355). -/
def hasGenericHandler (t : String) : Bool :=
  PENDING_REQUEST_TYPES.contains t &&
    !(REQUEST_TYPES_WITH_SPECIAL_RESPONSE_HANDLERS.contains t)

/-- A `PendingRequest` (part_001 lines 262-275). -/
structure PendingRequest where
  res : Res
  type : String
  clientId : Option String := none
  uuid : Option String := none
  path : Option String := none
  query : Option String := none
  filter : Option String := none
  timestamp : Int
  format : Option String := none
  initialScale : Option Int := none
  activeTab : Option Int := none
  darkMode : Option Bool := none

/-- The pending-request table `pendingRequests = new Map<string,
PendingRequest>()` (part_001 line 277), modelled as an association list
with pairwise-distinct keys. -/
abbrev PRT := List (String × PendingRequest)

/-- `Map.prototype.has`. -/
def mapHas (m : PRT) (k : String) : Bool :=
  m.any (fun kv => kv.1 == k)

/-- `Map.prototype.get`. -/
def mapGet (m : PRT) (k : String) : Option PendingRequest :=
  (m.find? (fun kv => kv.1 == k)).map (·.2)

/-- `Map.prototype.set`: replace the entry in place, else append. -/
def mapSet : PRT → String → PendingRequest → PRT
  | [], k, v => [(k, v)]
  | (k', v') :: rest, k, v =>
    if k' == k then (k, v) :: rest else (k', v') :: mapSet rest k v

/-- `Map.prototype.delete`. -/
def mapDelete (m : PRT) (k : String) : PRT :=
  m.filter (fun kv => kv.1 != k)

/-- The spec's atomic `take(requestId)`: look the waiter up and remove it. -/
def prtTake (m : PRT) (k : String) : Option PendingRequest × PRT :=
  (mapGet m k, mapDelete m k)

/-- Build the generic handler's response object (part_000 lines 366-374):
`{requestId, clientId}` then every field of the message except `requestId`
assigned over it. -/
def buildGenericResponse (rid : String) (cid : String) (data : JObj) : JObj :=
  data.foldl
    (fun acc kv =>
      if kv.1 == "requestId" then acc else setField acc kv.1 kv.2)
    [("requestId", JVal.str rid), ("clientId", JVal.str cid)]

/-- The generic `t-result` message handler registered by
`setupMessageHandlers` for every non-special pending request type
(part_000 lines 356-383).  `senderId` is `client.getId()`.  Returns the
table after the call and the HTTP write it performs, if any. -/
def genericResultHandler (prt : PRT) (senderId : String) (data : JObj) :
    PRT × Option HttpWrite :=
  match getField data "requestId" with
  | some (JVal.str rid) =>
    if rid ≠ "" ∧ mapHas prt rid then
      match mapGet prt rid with
      | some pending =>
        let response := buildGenericResponse rid
          (jsOrStr pending.clientId senderId) data
        let status := if truthy (getField response "error") then 400 else 200
        (mapDelete prt rid,
         safeResponse pending.res status (JVal.obj response))
      | none => (prt, none)
    else (prt, none)
  | _ => (prt, none)

/-- `config.timeout || 10000` (part_001 line 192). -/
def timeoutDuration (timeout : Option Int) : Int :=
  match timeout with
  | some t => if t == 0 then 10000 else t
  | none => 10000

/-- The per-request timeout callback armed by `createApiRoute`
(part_001 lines 193-198). -/
def timeoutCallback (prt : PRT) (requestId : String) (res : Res) :
    PRT × Option HttpWrite :=
  if mapHas prt requestId then
    (mapDelete prt requestId,
     safeResponse res 408 (JVal.obj [("error", JVal.str "Request timed out")]))
  else (prt, none)

/-- Interval of the periodic pending-request cleanup (part_000 line 587). -/
def reaperIntervalMs : Int := 10000

/-- Age beyond which the cleanup deletes an entry (part_000 line 582). -/
def reaperMaxAgeMs : Int := 30000

/-- The periodic cleanup body (part_000 lines 578-587): every entry older
than 30 s is deleted; nothing is written to any HTTP caller (the loop only
logs a warning). -/
def cleanupSweep (prt : PRT) (now : Int) : PRT × List HttpWrite :=
  (prt.filter (fun kv => !(now - kv.2.timestamp > reaperMaxAgeMs)), [])

/-- Absolute times of the periodic cleanup sweeps (registered at server
start, time 0) that run strictly before a timer armed for `d` ms by a
request registered at `t0`. -/
def sweepTimes (t0 d : Nat) : List Nat :=
  ((List.range (t0 / 10000 + d / 10000 + 2)).map (fun k => 10000 * k)).filter
    (fun s => decide (s < t0 + d))

/-- The pending-request table at the moment the per-request timer fires:
every earlier cleanup sweep applied in order. -/
def prtAtTimer (t0 d : Nat) (prt0 : PRT) : PRT :=
  (sweepTimes t0 d).foldl (fun m s => (cleanupSweep m (Int.ofNat s)).1) prt0

/-- Outcome for the caller of a request registered at absolute time `t0`
whose peer never responds and whose timer is armed for `d` ms: the timer
callback runs on the table left by all earlier cleanup sweeps (which
themselves write nothing, see `cleanupSweep`). -/
def silentPeerOutcome (t0 d : Nat) (res : Res) : Option HttpWrite :=
  (timeoutCallback
    (prtAtTimer t0 d
      [("r", { res := res, type := "roll", timestamp := (t0 : Int) })])
    "r" res).2

/-- Correlation-ID generation (part_001 line 150):
``` `${config.type}_${Date.now()}` ``` with the millisecond wall clock. -/
def generateRequestId (type : String) (now : Int) : String :=
  type ++ "_" ++ toString now

/-- Keys of the table are pairwise distinct (the `Map` representation
invariant). -/
def keysNodup (m : PRT) : Prop :=
  (m.map (·.1)).Nodup

theorem keysNodup_mapSet (m : PRT) (k : String) (v : PendingRequest)
    (h : keysNodup m) : keysNodup (mapSet m k v) := by
  induction m with
  | nil => simp [keysNodup, mapSet]
  | cons kv rest ih =>
    obtain ⟨k', v'⟩ := kv
    simp only [keysNodup, List.map_cons, List.nodup_cons] at h
    by_cases hk : (k' == k) = true
    · have : k' = k := eq_of_beq hk
      subst this
      simp only [mapSet, hk, if_true]
      simpa [keysNodup] using h
    · have hk' : (k' == k) = false := by simpa using hk
      simp only [mapSet, hk', Bool.false_eq_true, if_false]
      have h2 := ih h.2
      simp only [keysNodup, List.map_cons, List.nodup_cons]
      constructor
      · intro hmem
        -- k' is among the keys of `mapSet rest k v`, which are the keys of
        -- rest possibly with k added; k' ≠ k and k' ∉ keys rest.
        have : ∀ rest : PRT, k' ∉ rest.map (·.1) → (k' == k) = false →
            k' ∉ (mapSet rest k v).map (·.1) := by
          intro rest
          induction rest with
          | nil =>
            intro _ hne
            simp [mapSet]
            intro hcontra
            subst hcontra
            simp at hne
          | cons kv2 rest2 ih2 =>
            obtain ⟨k2, v2⟩ := kv2
            intro hnot hne
            simp only [List.map_cons, List.mem_cons] at hnot
            push_neg at hnot
            by_cases h2k : (k2 == k) = true
            · simp only [mapSet, h2k, if_true, List.map_cons, List.mem_cons]
              intro hcase
              rcases hcase with hcase | hcase
              · subst hcase; simp at hne
              · exact hnot.2 hcase
            · have h2k' : (k2 == k) = false := by simpa using h2k
              simp only [mapSet, h2k', Bool.false_eq_true, if_false,
                List.map_cons, List.mem_cons]
              intro hcase
              rcases hcase with hcase | hcase
              · exact hnot.1 hcase
              · exact ih2 hnot.2 hne hcase
        exact this rest h.1 hk' hmem
      · exact h2

theorem keysNodup_mapDelete (m : PRT) (k : String) (h : keysNodup m) :
    keysNodup (mapDelete m k) := by
  simp only [keysNodup, mapDelete] at h ⊢
  exact h.sublist ((List.filter_sublist m).map (·.1))

theorem mapHas_mapDelete (m : PRT) (k : String) :
    mapHas (mapDelete m k) k = false := by
  induction m with
  | nil => rfl
  | cons kv rest ih =>
    obtain ⟨k', v'⟩ := kv
    by_cases hk : (k' == k) = true
    · have hb : (k' != k) = false := by simp [bne, hk]
      simpa [mapDelete, List.filter_cons, hb] using ih
    · have hk' : (k' == k) = false := by simpa using hk
      have hb : (k' != k) = true := by simp [bne, hk']
      simpa [mapDelete, mapHas, List.filter_cons, hb, hk'] using ih

theorem mapGet_eq_none_of_not_has (m : PRT) (k : String)
    (h : mapHas m k = false) : mapGet m k = none := by
  induction m with
  | nil => rfl
  | cons kv rest ih =>
    obtain ⟨k', v'⟩ := kv
    simp only [mapHas, List.any_cons, Bool.or_eq_false_iff] at h
    simp only [mapGet, List.find?, h.1]
    exact ih h.2

/-- Taking a requestId twice: after the first take removes the waiter, the
second take yields none. -/
theorem prtTake_twice (m : PRT) (k : String) :
    (prtTake (prtTake m k).2 k).1 = none := by
  exact mapGet_eq_none_of_not_has _ _ (mapHas_mapDelete m k)

/-- Skip JSON/JS whitespace. -/
def skipWs : List Char → List Char
  | c :: cs =>
    if c = ' ' ∨ c = '\t' ∨ c = '\n' ∨ c = '\r' then skipWs cs else c :: cs
  | [] => []

/-- Longest digit prefix as a number; no digits means NaN (`none`). -/
def digitsPrefix (cs : List Char) : Option Nat :=
  let ds := cs.takeWhile Char.isDigit
  if ds.isEmpty then none
  else some (ds.foldl (fun acc c => acc * 10 + (c.toNat - 48)) 0)

/-- Model of JS `parseFloat` restricted to integral values (JSON numbers are
modelled as integers): skip whitespace, optional sign, longest digit
prefix; no digits gives NaN (`none`). -/
def strParseFloat (s : String) : Option Int :=
  match skipWs s.data with
  | '-' :: rest => (digitsPrefix rest).map (fun n => -(n : Int))
  | '+' :: rest => (digitsPrefix rest).map (fun n => (n : Int))
  | rest => (digitsPrefix rest).map (fun n => (n : Int))

/-- `parseFloat(value)` on an arbitrary value: numbers pass through, other
values are converted to string first. -/
def parseFloatModel (v : JVal) : Option Int :=
  match v with
  | .num n => some n
  | _ => strParseFloat (jsToString v)

/-- JSON string body after the opening quote; common escapes only
(exotic escapes such as `\u` make the parse fail). -/
def jsonParseStrBody : List Char → Option (String × List Char)
  | [] => none
  | '"' :: rest => some ("", rest)
  | '\\' :: c :: rest =>
    let esc : Option Char :=
      if c = '"' then some '"'
      else if c = '\\' then some '\\'
      else if c = '/' then some '/'
      else if c = 'n' then some '\n'
      else if c = 't' then some '\t'
      else if c = 'r' then some '\r'
      else none
    match esc with
    | none => none
    | some e =>
      (jsonParseStrBody rest).map (fun sr => (String.singleton e ++ sr.1, sr.2))
  | c :: rest =>
    (jsonParseStrBody rest).map (fun sr => (String.singleton c ++ sr.1, sr.2))

mutual

/-- Fuel-based model of `JSON.parse` for one value (numbers restricted to
integers, in line with the `JVal` model). -/
def jsonParseVal (fuel : Nat) (cs : List Char) : Option (JVal × List Char) :=
  match fuel with
  | 0 => none
  | fuel' + 1 =>
    match skipWs cs with
    | 'n' :: 'u' :: 'l' :: 'l' :: rest => some (.null, rest)
    | 't' :: 'r' :: 'u' :: 'e' :: rest => some (.bool true, rest)
    | 'f' :: 'a' :: 'l' :: 's' :: 'e' :: rest => some (.bool false, rest)
    | '"' :: rest => (jsonParseStrBody rest).map (fun sr => (.str sr.1, sr.2))
    | '[' :: rest =>
      (match skipWs rest with
       | ']' :: r => some (.arr [], r)
       | r => jsonParseArrItems fuel' r [])
    | '{' :: rest =>
      (match skipWs rest with
       | '}' :: r => some (.obj [], r)
       | r => jsonParseObjItems fuel' r [])
    | '-' :: rest =>
      (digitsPrefix rest).map (fun n =>
        (.num (-(n : Int)), rest.dropWhile Char.isDigit))
    | rest =>
      (digitsPrefix rest).map (fun n =>
        (.num (n : Int), rest.dropWhile Char.isDigit))

/-- Comma-separated array items up to `]`. -/
def jsonParseArrItems (fuel : Nat) (cs : List Char) (acc : List JVal) :
    Option (JVal × List Char) :=
  match fuel with
  | 0 => none
  | fuel' + 1 =>
    match jsonParseVal fuel' cs with
    | none => none
    | some (v, r) =>
      match skipWs r with
      | ',' :: r2 => jsonParseArrItems fuel' r2 (acc ++ [v])
      | ']' :: r2 => some (.arr (acc ++ [v]), r2)
      | _ => none

/-- Comma-separated object entries up to `}`. -/
def jsonParseObjItems (fuel : Nat) (cs : List Char) (acc : JObj) :
    Option (JVal × List Char) :=
  match fuel with
  | 0 => none
  | fuel' + 1 =>
    match skipWs cs with
    | '"' :: rest =>
      (match jsonParseStrBody rest with
       | none => none
       | some (k, r) =>
         match skipWs r with
         | ':' :: r2 =>
           (match jsonParseVal fuel' r2 with
            | none => none
            | some (v, r3) =>
              match skipWs r3 with
              | ',' :: r4 => jsonParseObjItems fuel' r4 (acc ++ [(k, v)])
              | '}' :: r4 => some (.obj (acc ++ [(k, v)]), r4)
              | _ => none)
         | _ => none)
    | _ => none

end

/-- `JSON.parse` model: the whole string must be one JSON value. -/
def jsonParse (s : String) : Option JVal :=
  match jsonParseVal (s.length + 1) s.data with
  | some (v, r) => if (skipWs r).isEmpty then some v else none
  | none => none

/-- The request-parameter sources (`'body' | 'query' | 'params'`). -/
inductive PSource : Type where
  | body : PSource
  | query : PSource
  | pathParams : PSource

/-- The `type` field of a `ParamDef` (part_001 line 12). -/
inductive PType : Type where
  | string : PType
  | number : PType
  | boolean : PType
  | array : PType
  | object : PType

/-- A `ParamDef` (part_001 lines 9-13); `src` holds the single source or
the source array. -/
structure ParamDef where
  name : String
  src : List PSource
  ptype : Option PType := none

/-- An incoming Express request, as far as parameter extraction sees it. -/
structure HttpReq where
  body : JObj := []
  query : JObj := []
  pathParams : JObj := []

/-- `req[source]` for a parameter source. -/
def reqSource (req : HttpReq) : PSource → JObj
  | .body => req.body
  | .query => req.query
  | .pathParams => req.pathParams

/-- First defined value among the parameter's sources
(part_001 lines 59-68). -/
def extractParam (req : HttpReq) (p : ParamDef) : Option JVal :=
  p.src.findSome? (fun s => getField (reqSource req s) p.name)

/-- The `params` record after extraction (absent values are dropped, which
matches how `undefined` entries behave on the wire). -/
def extractParams (defs : List ParamDef) (req : HttpReq) : JObj :=
  defs.foldl
    (fun acc p =>
      match extractParam req p with
      | some v => setField acc p.name v
      | none => acc) []

/-- The coercion `switch` of `createApiRoute` (part_001 lines 80-119). -/
def coerceValue (name : String) (t : PType) (v : JVal) : Except String JVal :=
  match t with
  | .number =>
    (match v with
     | .num n => .ok (.num n)
     | _ =>
       match parseFloatModel v with
       | some n => .ok (.num n)
       | none => .error ("\x27" ++ name ++ "\x27 must be a valid number."))
  | .boolean =>
    (match v with
     | .bool b => .ok (.bool b)
     | _ =>
       if (jsToString v).toLower == "true" then .ok (.bool true)
       else if (jsToString v).toLower == "false" then .ok (.bool false)
       else .error ("\x27" ++ name ++ "\x27 must be a valid boolean."))
  | .array =>
    (match v with
     | .arr xs => .ok (.arr xs)
     | .str s =>
       (match jsonParse s with
        | some (.arr xs) => .ok (.arr xs)
        | some _ => .error ("\x27" ++ name ++ "\x27 must be an array.")
        | none => .error ("\x27" ++ name ++ "\x27 must be a valid array."))
     | _ => .error ("\x27" ++ name ++ "\x27 must be an array."))
  | .string =>
    (match v with
     | .str s => .ok (.str s)
     | _ => .error ("\x27" ++ name ++ "\x27 must be a string."))
  | .object =>
    (match v with
     | .obj fs => .ok (.obj fs)
     | _ => .error ("\x27" ++ name ++ "\x27 must be an object."))

/-- The type-validation/coercion pass over all declared parameters
(part_001 lines 72-126): `undefined`/`null` values are skipped, a failed
coercion aborts with the 400 error message. -/
def coerceAll (defs : List ParamDef) (params : JObj) : Except String JObj :=
  defs.foldlM
    (fun ps p =>
      match getField ps p.name with
      | none => .ok ps
      | some .null => .ok ps
      | some v =>
        match p.ptype with
        | none => .ok ps
        | some t =>
          match coerceValue p.name t v with
          | .ok v2 => .ok (setField ps p.name v2)
          | .error e => .error e) params

/-- First required parameter that is `undefined` or `null`
(part_001 lines 135-139). -/
def firstMissingRequired (required : List ParamDef) (params : JObj) :
    Option String :=
  (required.find? (fun p =>
    match getField params p.name with
    | none => true
    | some .null => true
    | some _ => false)).map (·.name)

/-- Modelled from the spec: `ClientManager.getClient` (whose source,
`src/core/ClientManager.ts`, is not part of this snapshot) resolves a
client ID against the Local Client Table of connected peers (spec §4.2);
`clients` is the set of locally connected client IDs and a single replica
is modelled (directory lookups degrade to not-found, spec §4.2).  The
table is keyed by strings, so a non-string ID never matches. -/
def ClientManager.getClient (clients : List String) (clientId : JVal) :
    Option String :=
  match clientId with
  | .str s => if clients.contains s then some s else none
  | _ => none

/-- The value of `config.buildPendingRequest`: a
`Partial<Omit<PendingRequest, 'res' | 'timestamp' | 'type' | 'clientId'>>`. -/
structure PendingPatch where
  uuid : Option String := none
  path : Option String := none
  query : Option String := none
  filter : Option String := none
  format : Option String := none
  initialScale : Option Int := none
  activeTab : Option Int := none
  darkMode : Option Bool := none

/-- Spread `{...base, ...patch}` where the patch only carries the keys it
sets. -/
def applyPatch (base : PendingRequest) (p : PendingPatch) : PendingRequest :=
  { base with
    uuid := p.uuid <|> base.uuid
    path := p.path <|> base.path
    query := p.query <|> base.query
    filter := p.filter <|> base.filter
    format := p.format <|> base.format
    initialScale := p.initialScale <|> base.initialScale
    activeTab := p.activeTab <|> base.activeTab
    darkMode := p.darkMode <|> base.darkMode }

/-- `ApiRouteConfig` (part_001 lines 18-43). -/
structure ApiRouteConfig where
  type : String
  requiredParams : List ParamDef := []
  optionalParams : List ParamDef := []
  timeout : Option Int := none
  validateParams : Option (JObj → HttpReq → Option JObj) := none
  buildPayload : Option (JObj → HttpReq → JObj) := none
  buildPendingRequest : Option (JObj → PendingPatch) := none

/-- Everything one invocation of a `createApiRoute` handler does: the table
afterwards, the HTTP write (if it responded synchronously), the message
sent to the peer (if any), and the armed timeout duration (if any). -/
structure RouteResult where
  prt : PRT
  write : Option HttpWrite
  sentMsg : Option JObj
  timerMs : Option Int

/-- `{...payload.data}`: shallow copy of an object value; non-object values
spread to the empty object (the pathological string case, which would
spread to indexed characters, does not occur on this wire format). -/
def dataSpread : Option JVal → JObj
  | some (.obj fs) => fs
  | _ => []

/-- Apply `config.validateParams` when present. -/
def runValidateParams (config : ApiRouteConfig) (params : JObj)
    (req : HttpReq) : Option JObj :=
  match config.validateParams with
  | some f => f params req
  | none => none

/-- `createApiRoute` (part_001 lines 53-204): parameter extraction, type
coercion, custom validation, required-parameter check, client lookup,
waiter registration under `"{type}_{Date.now()}"`, message send, and the
timeout arm.  `sendOk` is the boolean returned by `client.send`. -/
def createApiRoute (config : ApiRouteConfig) (clients : List String)
    (req : HttpReq) (res : Res) (now : Int) (sendOk : Bool) (prt : PRT) :
    RouteResult :=
  let allParamDefs := config.requiredParams ++ config.optionalParams
  let params0 := extractParams allParamDefs req
  match coerceAll allParamDefs params0 with
  | .error msg =>
    ⟨prt, safeResponse res 400 (.obj [("error", .str msg)]), none, none⟩
  | .ok params =>
    match runValidateParams config params req with
    | some errObj =>
      ⟨prt, safeResponse res 400 (.obj errObj), none, none⟩
    | none =>
      match firstMissingRequired config.requiredParams params with
      | some name =>
        ⟨prt,
         safeResponse res 400
           (.obj [("error", .str ("\x27" ++ name ++ "\x27 is required"))]),
         none, none⟩
      | none =>
        match ClientManager.getClient clients
            ((getField params "clientId").getD .null) with
        | none =>
          ⟨prt,
           safeResponse res 404 (.obj [("error", .str "Invalid client ID")]),
           none, none⟩
        | some cid =>
          let requestId := generateRequestId config.type now
          let patch := match config.buildPendingRequest with
            | some f => f params
            | none => {}
          let pending := applyPatch
            { res := res, type := config.type, clientId := some cid,
              timestamp := now } patch
          let prt1 := mapSet prt requestId pending
          let payloadSource := match config.buildPayload with
            | some f => f params req
            | none => params
          let payload := deleteField (deleteField payloadSource "clientId") "type"
          let message := setField
            (payload.foldl (fun acc kv => setField acc kv.1 kv.2)
              [("type", JVal.str config.type),
               ("requestId", JVal.str requestId)])
            "data" (.obj (dataSpread (getField payload "data")))
          if sendOk then
            ⟨prt1, none, some message, some (timeoutDuration config.timeout)⟩
          else
            ⟨mapDelete prt1 requestId,
             safeResponse res 500
               (.obj [("error",
                       .str "Failed to send request to Foundry client")]),
             none, none⟩

/-- The `POST /roll` route configuration (part_001 lines 345-357):
`clientId` is declared with source `query` only. -/
def rollPostConfig : ApiRouteConfig :=
  { type := "roll",
    requiredParams :=
      [{ name := "clientId", src := [.query], ptype := some .string },
       { name := "formula", src := [.body], ptype := some .string }],
    optionalParams :=
      [{ name := "flavor", src := [.body], ptype := some .string },
       { name := "createChatMessage", src := [.body], ptype := some .boolean },
       { name := "speaker", src := [.body], ptype := some .string },
       { name := "whisper", src := [.body], ptype := some .array }] }

/-- `buildPayload` of `GET /rolls` (part_001 lines 308-319). -/
def rollsBuildPayload (params : JObj) (req : HttpReq) : JObj :=
  let payload : JObj := []
  let payload :=
    if truthy (getField params "limit") then
      setField payload "limit" ((getField params "limit").getD .null)
    else payload
  if truthy (getField params "clear") || truthy (getField params "refresh") then
    setField (setField payload "clear" (.bool true)) "refresh" (.bool true)
  else payload

/-- The `GET /rolls` route configuration (part_001 lines 298-320). -/
def rollsGetConfig : ApiRouteConfig :=
  { type := "rolls",
    requiredParams :=
      [{ name := "clientId", src := [.query], ptype := some .string }],
    optionalParams :=
      [{ name := "limit", src := [.query], ptype := some .number },
       { name := "clear", src := [.query], ptype := some .boolean },
       { name := "refresh", src := [.query], ptype := some .boolean }],
    buildPayload := some rollsBuildPayload }

/-- Value of one base64 alphabet character; `none` for characters outside
the alphabet (ignored by Node's forgiving decoder, including padding). -/
def b64Val (c : Char) : Option Nat :=
  if 'A' ≤ c ∧ c ≤ 'Z' then some (c.toNat - 65)
  else if 'a' ≤ c ∧ c ≤ 'z' then some (c.toNat - 97 + 26)
  else if '0' ≤ c ∧ c ≤ '9' then some (c.toNat - 48 + 52)
  else if c = '+' then some 62
  else if c = '/' then some 63
  else none

/-- Decode a list of 6-bit values into bytes, groups of four at a time;
a trailing group of two or three values contributes one or two bytes. -/
def b64DecodeVals : List Nat → List Nat
  | a :: b :: c :: d :: rest =>
    (a * 4 + b / 16) :: ((b % 16) * 16 + c / 4) :: ((c % 4) * 64 + d) ::
      b64DecodeVals rest
  | [a, b] => [a * 4 + b / 16]
  | [a, b, c] => [(a * 4 + b / 16), ((b % 16) * 16 + c / 4)]
  | _ => []

/-- `Buffer.from(s, 'base64')`: drop non-alphabet characters (incl. `=`
padding) and decode. -/
def base64Decode (s : String) : List Nat :=
  b64DecodeVals (s.data.filterMap b64Val)

/-- An HTTP response as observed by the caller: either a JSON write (via
`safeResponse`) or a raw binary body with explicit headers
(`res.status(200).end(buffer)`). -/
inductive HttpOut : Type where
  | jsonOut : HttpWrite → HttpOut
  | binaryOut : (resId : Nat) → (contentType : String) →
      (contentDisposition : String) → (contentLength : Nat) →
      (body : List Nat) → HttpOut

/-- `data.mimeType || 'application/octet-stream'` (part_000 line 555). -/
def jsOrDefaultHeader (v : Option JVal) (d : String) : String :=
  match v with
  | some x => if jvalTruthy x then jsToString x else d
  | none => d

/-- Template-literal interpolation of a possibly-absent field
(`undefined` prints as "undefined"). -/
def jsTemplate (v : Option JVal) : String :=
  match v with
  | none => "undefined"
  | some x => jsToString x

/-- The non-error tail of the `download-file-result` handler
(part_000 lines 546-573). -/
def downloadFileContinue (request : PendingRequest) (senderId rid : String)
    (data : JObj) : Option HttpOut :=
  let format := jsOrStr request.format "binary"
  if format == "binary" || format == "raw" then
    match getField data "fileData" with
    | some (JVal.str fd) =>
      (match (splitComma fd)[1]? with
       | some b64 =>
         let buffer := base64Decode b64
         some (.binaryOut request.res.id
           (jsOrDefaultHeader (getField data "mimeType")
             "application/octet-stream")
           ("attachment; filename=\x22" ++ jsTemplate (getField data "filename")
             ++ "\x22")
           buffer.length buffer)
       | none => none)
    | _ => none
  else
    match getField data "fileData" with
    | some (JVal.str fd) =>
      (match (splitComma fd)[1]? with
       | some b64 =>
         (safeResponse request.res 200
           (JVal.obj
             ([("clientId", JVal.str senderId),
               ("requestId", JVal.str rid),
               ("success", JVal.bool true)] ++
              (match getField data "path" with
               | some p => [("path", p)] | none => []) ++
              (match getField data "filename" with
               | some f => [("filename", f)] | none => []) ++
              (match getField data "mimeType" with
               | some m => [("mimeType", m)] | none => []) ++
              [("fileData", JVal.str fd),
               ("size", JVal.num (base64Decode b64).length)]))).map .jsonOut
       | none => none)
    | _ => none

/-- The `download-file-result` message handler (part_000 lines 530-575).
The entry is deleted first; an error gives a 500 JSON body; otherwise
`request.format || 'binary'` selects raw bytes (with Content-Type,
Content-Disposition and Content-Length headers) or the JSON shape carrying
the data URL.  A missing or comma-less `fileData` makes `split(',')[1]`
yield `undefined` and `Buffer.from` throw, producing no write (`none`). -/
def downloadFileResultHandler (prt : PRT) (senderId : String) (data : JObj) :
    PRT × Option HttpOut :=
  match getField data "requestId" with
  | some (JVal.str rid) =>
    if rid ≠ "" ∧ mapHas prt rid then
      match mapGet prt rid with
      | some request =>
        let prt' := mapDelete prt rid
        match getField data "error" with
        | some e =>
          if jvalTruthy e then
            (prt',
             (safeResponse request.res 500
               (JVal.obj [("clientId", JVal.str senderId),
                          ("requestId", JVal.str rid),
                          ("error", e)])).map .jsonOut)
          else
            (prt', downloadFileContinue request senderId rid data)
        | none => (prt', downloadFileContinue request senderId rid data)
      | none => (prt, none)
    else (prt, none)
  | _ => (prt, none)

/-- `Array.prototype.findIndex`: index of the first element satisfying
`p`, else none. -/
def findIndexJs {a : Type} : List a → (a → Bool) → Option Nat
  | [], _ => none
  | x :: xs, p => if p x then some 0 else (findIndexJs xs p).map (· + 1)

/-- `MAX_ROLLS_STORED` (module.js line 7). -/
def MAX_ROLLS_STORED : Nat := 20

/-- `MAX_CHAT_MESSAGES_STORED` (module.js line 8), also the default of the
`maxChatMessagesStored` world setting. -/
def MAX_CHAT_MESSAGES_STORED : Nat := 100

/-- One stored chat message (module.js lines 607-621): the `id` and
`timestamp` drive the storage logic; `payload` opaquely carries the
remaining fields (`messageId`, `user`, `content`, `flavor`, `type`,
`speaker`, `whisper`, `blind`). -/
structure ChatData where
  id : String
  timestamp : Int
  payload : JObj := []

/-- One stored roll (module.js lines 644-665), with the fields not touched
by the storage logic kept opaquely in `payload`. -/
structure RollData where
  id : String
  timestamp : Int
  payload : JObj := []

/-- The chat-collection hook body after `chatData` is built (module.js
lines 624-635): replace in place on an existing id, else unshift, then
truncate to `maxStored`. -/
def storeChatMessage (recentChatMessages : List ChatData)
    (chatData : ChatData) (maxStored : Nat) : List ChatData :=
  let updated :=
    match findIndexJs recentChatMessages (fun m => m.id == chatData.id) with
    | some i => recentChatMessages.set i chatData
    | none => chatData :: recentChatMessages
  if updated.length > maxStored then updated.take maxStored else updated

/-- `game.settings.get(maxChatMessagesStored) || MAX_CHAT_MESSAGES_STORED`
(module.js line 632): a falsy setting falls back to 100. -/
def chatMaxStored (setting : Option Nat) : Nat :=
  match setting with
  | some n => if n == 0 then MAX_CHAT_MESSAGES_STORED else n
  | none => MAX_CHAT_MESSAGES_STORED

/-- The roll-collection hook body after `rollData` is built (module.js
lines 667-676): same replace/unshift/truncate pattern with the fixed bound
`MAX_ROLLS_STORED`. -/
def storeRoll (recentRolls : List RollData) (rollData : RollData) :
    List RollData :=
  let updated :=
    match findIndexJs recentRolls (fun r => r.id == rollData.id) with
    | some i => recentRolls.set i rollData
    | none => rollData :: recentRolls
  if updated.length > MAX_ROLLS_STORED then updated.take MAX_ROLLS_STORED
  else updated

/-- `Array.prototype.slice(0, e)`: a negative end counts from the end of
the array. -/
def jsSliceTo {a : Type} (l : List a) (e : Int) : List a :=
  if e < 0 then l.take (l.length - e.natAbs) else l.take e.toNat

/-- The `|| 50` tail of the chat limit chain (a falsy setting falls
through). -/
def chatLimitFallback (setting : Option Nat) : Int :=
  match setting with
  | some n => if n == 0 then 50 else (n : Int)
  | none => 50

/-- `data.limit || <setting> || 50` in the chat-messages handler
(module.js line 491); only `0` is falsy for a number. -/
def chatLimit (dataLimit : Option Int) (setting : Option Nat) : Int :=
  match dataLimit with
  | some n => if n == 0 then chatLimitFallback setting else n
  | none => chatLimitFallback setting

/-- The `chat-messages` peer handler (module.js lines 486-527): copy the
store, sort by timestamp when `sort == "timestamp"` (descending unless
`order` is not "desc"), and slice to the limit. -/
def chatMessagesHandler (recentChatMessages : List ChatData) (limit : Int)
    (sort order : String) : List ChatData :=
  let messages := recentChatMessages
  let messages :=
    if sort == "timestamp" then
      messages.mergeSort (fun a b =>
        if order == "desc" then decide (b.timestamp ≤ a.timestamp)
        else decide (a.timestamp ≤ b.timestamp))
    else messages
  jsSliceTo messages limit

/-- `data.limit || 20` in the rolls peer handler (module.js line 539). -/
def rollsLimit (dataLimit : Option Int) : Int :=
  match dataLimit with
  | some n => if n == 0 then 20 else n
  | none => 20

/-- The `rolls` peer handler (module.js lines 532-541):
`recentRolls.slice(0, data.limit || 20)`. -/
def rollsHandler (recentRolls : List RollData) (dataLimit : Option Int) :
    List RollData :=
  jsSliceTo recentRolls (rollsLimit dataLimit)

theorem getField_setField (o : JObj) (k : String) (v : JVal) (k' : String) :
    getField (setField o k v) k' =
      if k == k' then some v else getField o k' := by
  induction o with
  | nil =>
    by_cases h : (k == k') = true
    · simp [setField, getField_cons, h]
    · have h' : (k == k') = false := by simpa using h
      simp [setField, getField_cons, h', getField]
  | cons kv rest ih =>
    obtain ⟨k0, v0⟩ := kv
    by_cases h0 : (k0 == k) = true
    · have hk : k0 = k := eq_of_beq h0
      subst hk
      by_cases h : (k0 == k') = true
      · simp [setField, getField_cons, h]
      · have h' : (k0 == k') = false := by simpa using h
        simp [setField, getField_cons, h']
    · have h0' : (k0 == k) = false := by simpa using h0
      by_cases h1 : (k0 == k') = true
      · have hk : k0 = k' := eq_of_beq h1
        subst hk
        have hkk : (k == k0) = false := by
          cases hkk : k == k0 with
          | false => rfl
          | true =>
            rw [eq_of_beq hkk] at h0'
            simp at h0'
        simp [setField, h0', getField_cons, h1, hkk]
      · have h1' : (k0 == k') = false := by simpa using h1
        simp [setField, h0', getField_cons, h1', ih]

theorem getField_eq_none_of_not_mem (o : JObj) (k : String)
    (h : k ∉ o.map (·.1)) : getField o k = none := by
  induction o with
  | nil => rfl
  | cons kv rest ih =>
    obtain ⟨k0, v0⟩ := kv
    simp only [List.map_cons, List.mem_cons] at h
    push_neg at h
    have hne : (k0 == k) = false := by
      cases hkk : k0 == k with
      | false => rfl
      | true => exact absurd (eq_of_beq hkk).symm h.1
    simp [getField_cons, hne, ih h.2]
/-- The loop of the generic handler: fields of `l` other than `requestId`
assigned over `acc`, looked up at `k`. -/
theorem getField_foldl_assign (l : JObj) :
    ∀ acc : JObj, (l.map (·.1)).Nodup → ∀ k : String,
    getField
      (l.foldl
        (fun a kv => if kv.1 == "requestId" then a else setField a kv.1 kv.2)
        acc) k =
      (if k == "requestId" then getField acc k
       else (getField l k).orElse (fun _ => getField acc k)) := by
  induction l with
  | nil =>
    intro acc _ k
    by_cases hk : k = "requestId"
    · simp [hk, getField]
    · simp [hk, getField, Option.orElse]
  | cons kv rest ih =>
    intro acc hnd k
    obtain ⟨k0, v0⟩ := kv
    simp only [List.map_cons, List.nodup_cons] at hnd
    by_cases h0 : k0 = "requestId"
    · subst h0
      rw [List.foldl_cons, if_pos (by simp)]
      rw [ih acc hnd.2 k]
      by_cases hk : k = "requestId"
      · simp [hk]
      · have hne : ("requestId" == k) = false := by
          cases h : "requestId" == k with
          | false => rfl
          | true => exact absurd (eq_of_beq h).symm hk
        simp [hk, getField_cons, hne]
    · have h0b : (k0 == "requestId") = false := by
        cases h : k0 == "requestId" with
        | false => rfl
        | true => exact absurd (eq_of_beq h) h0
      rw [List.foldl_cons, if_neg (by simp [h0b])]
      rw [ih (setField acc k0 v0) hnd.2 k]
      by_cases hk : k = "requestId"
      · subst hk
        rw [if_pos (by simp), if_pos (by simp)]
        rw [getField_setField]
        simp [h0b]
      · have hkb : (k == "requestId") = false := by
          cases h : k == "requestId" with
          | false => rfl
          | true => exact absurd (eq_of_beq h) hk
        rw [if_neg (by simp [hkb]), if_neg (by simp [hkb])]
        rw [getField_setField, getField_cons]
        by_cases h01 : k0 = k
        · subst h01
          have hrest : getField rest k0 = none :=
            getField_eq_none_of_not_mem rest k0 hnd.1
          simp [hrest, Option.orElse]
        · have h01b : (k0 == k) = false := by
            cases h : k0 == k with
            | false => rfl
            | true => exact absurd (eq_of_beq h) h01
          simp only [h01b, Bool.false_eq_true, if_false]

theorem getField_buildGenericResponse (rid cid : String) (data : JObj)
    (k : String) (hnd : (data.map (·.1)).Nodup) :
    getField (buildGenericResponse rid cid data) k =
      (if k == "requestId" then some (JVal.str rid)
       else (getField data k).orElse
         (fun _ => if k == "clientId" then some (JVal.str cid) else none)) := by
  rw [buildGenericResponse, getField_foldl_assign data _ hnd k]
  by_cases hk : k = "requestId"
  · subst hk
    rw [if_pos (by simp), if_pos (by simp)]
    simp [getField_cons]
  · have hkb : (k == "requestId") = false := by
      cases h : k == "requestId" with
      | false => rfl
      | true => exact absurd (eq_of_beq h) hk
    have hne : ("requestId" == k) = false := by
      cases h : "requestId" == k with
      | false => rfl
      | true => exact absurd (eq_of_beq h).symm hk
    rw [if_neg (by simp [hkb]), if_neg (by simp [hkb])]
    by_cases hc : k = "clientId"
    · subst hc
      rw [if_pos (by simp)]
      simp [getField_cons, hne]
    · have hcb : ("clientId" == k) = false := by
        cases h : "clientId" == k with
        | false => rfl
        | true => exact absurd (eq_of_beq h).symm hc
      have hckb : (k == "clientId") = false := by
        cases h : k == "clientId" with
        | false => rfl
        | true => exact absurd (eq_of_beq h) hc
      rw [if_neg (by simp [hckb])]
      simp [getField_cons, hne, hcb, getField]

theorem hasSensitiveObj_setField (o : JObj) (k : String) (v : JVal)
    (ho : hasSensitiveObj o = false) (hk : sensitiveKey k = false)
    (hv : hasSensitive v = false) :
    hasSensitiveObj (setField o k v) = false := by
  induction o with
  | nil => simp [setField, hasSensitiveObj, hk, hv]
  | cons kv rest ih =>
    obtain ⟨k0, v0⟩ := kv
    simp only [hasSensitiveObj, Bool.or_eq_false_iff] at ho
    by_cases h0 : (k0 == k) = true
    · simp [setField, h0, hasSensitiveObj, hk, hv, ho.2]
    · have h0' : (k0 == k) = false := by simpa using h0
      simp [setField, h0', hasSensitiveObj, ho.1.1, ho.1.2, ih ho.2]

/-- Auxiliary: the handler's assignment fold keeps an object clean. -/
theorem foldlAssignClean (l : JObj) :
    ∀ acc : JObj, hasSensitiveObj l = false → hasSensitiveObj acc = false →
    hasSensitiveObj
      (l.foldl
        (fun a kv => if kv.1 == "requestId" then a else setField a kv.1 kv.2)
        acc) = false := by
  induction l with
  | nil => intro acc _ hacc; exact hacc
  | cons kv rest ih =>
    intro acc hl hacc
    obtain ⟨k0, v0⟩ := kv
    simp only [hasSensitiveObj, Bool.or_eq_false_iff] at hl
    rw [List.foldl_cons]
    by_cases h0 : k0 = "requestId"
    · rw [if_pos (by simp [h0])]
      exact ih acc hl.2 hacc
    · have h0b : (k0 == "requestId") = false := by
        cases h : k0 == "requestId" with
        | false => rfl
        | true => exact absurd (eq_of_beq h) h0
      rw [if_neg (by simp [h0b])]
      exact ih _ hl.2 (hasSensitiveObj_setField _ _ _ hacc hl.1.1 hl.1.2)

theorem hasSensitiveObj_buildGenericResponse (rid cid : String) (data : JObj)
    (hd : hasSensitiveObj data = false) :
    hasSensitiveObj (buildGenericResponse rid cid data) = false := by
  have hbase : hasSensitiveObj
      [("requestId", JVal.str rid), ("clientId", JVal.str cid)] = false := rfl
  rw [buildGenericResponse]
  exact foldlAssignClean data _ hd hbase

/-- C8: for every response body written to an HTTP caller through
`safeResponse`, the keys `privateKey`, `apiKey` and `password` are removed
at every nesting depth (in nested objects and inside arrays) before the
body is written; fields with non-sensitive keys are preserved (their values
recursively sanitized) and a body containing no sensitive key anywhere is
written unchanged.  The remaining write paths (`res.send` of an HTML string,
`res.end` of a binary buffer) emit bodies that carry no object keys. -/
theorem C8_sensitive_keys_stripped (res : Res) (st : Nat) (data : JVal)
    (w : HttpWrite) (hw : safeResponse res st data = some w) :
    w.body = sanitizeResponse data ∧
    hasSensitive w.body = false ∧
    (hasSensitive data = false → w.body = data) ∧
    (∀ (fs : JObj) (k : String), sensitiveKey k = true →
      getField (removeSensitiveKeysObj fs) k = none) ∧
    (∀ (fs : JObj) (k : String), sensitiveKey k = false →
      getField (removeSensitiveKeysObj fs) k =
        (getField fs k).map removeSensitiveKeys) ∧
    w.status = st ∧ w.resId = res.id := by
  unfold safeResponse at hw
  by_cases h : res.headersSent
  · rw [if_pos h] at hw
    exact absurd hw (by simp)
  · rw [if_neg h] at hw
    obtain rfl := (Option.some_inj.mp hw).symm
    exact ⟨rfl, hasSensitive_sanitizeResponse data,
      sanitizeResponse_of_clean data,
      getField_removeSensitiveKeysObj_sensitive,
      getField_removeSensitiveKeysObj_clean, rfl, rfl⟩

/-- Witness for C8: a concrete nested body through `safeResponse`. -/
theorem C8_sensitive_keys_stripped_witness :
    hasSensitive (sanitizeResponse (JVal.obj
      [("apiKey", JVal.str "k"),
       ("x", JVal.arr [JVal.obj [("password", JVal.null),
                                 ("y", JVal.num 1)]])])) = false :=
  (C8_sensitive_keys_stripped ⟨0, false⟩ 200
    (JVal.obj
      [("apiKey", JVal.str "k"),
       ("x", JVal.arr [JVal.obj [("password", JVal.null),
                                 ("y", JVal.num 1)]])])
    ⟨0, 200, sanitizeResponse (JVal.obj
      [("apiKey", JVal.str "k"),
       ("x", JVal.arr [JVal.obj [("password", JVal.null),
                                 ("y", JVal.num 1)]])])⟩ rfl).2.1

/-- C3: a waiter is removed from the pending-request table exactly once.
After any completion path deletes the entry for `rid`, the table no longer
contains `rid`; a later generic result message for `rid` leaves the table
unchanged and writes nothing; a later timeout callback for `rid` leaves
the table unchanged and writes nothing; a response handle whose headers
were already sent is never written again; and taking a requestId twice
yields the waiter at most once — the second take yields none. -/
theorem C3_removed_exactly_once (prt : PRT) (rid : String) (data : JObj)
    (senderId : String) (res : Res) (i : Nat)
    (hdata : getField data "requestId" = some (JVal.str rid)) :
    mapHas (mapDelete prt rid) rid = false ∧
    genericResultHandler (mapDelete prt rid) senderId data
      = (mapDelete prt rid, none) ∧
    timeoutCallback (mapDelete prt rid) rid res
      = (mapDelete prt rid, none) ∧
    (∀ (st : Nat) (d : JVal), safeResponse ⟨i, true⟩ st d = none) ∧
    (prtTake (prtTake prt rid).2 rid).1 = none := by
  have h1 := mapHas_mapDelete prt rid
  refine ⟨h1, ?_, ?_, ?_, prtTake_twice prt rid⟩
  · unfold genericResultHandler
    rw [hdata]
    simp [h1]
  · unfold timeoutCallback
    simp [h1]
  · intro st d
    unfold safeResponse
    simp

/-- Witness for C3 at a concrete table and message. -/
theorem C3_removed_exactly_once_witness :
    (prtTake
      (prtTake [("roll_1",
        { res := ⟨0, false⟩, type := "roll",
          timestamp := 0 : PendingRequest })] "roll_1").2 "roll_1").1
      = none :=
  (C3_removed_exactly_once
    [("roll_1", { res := ⟨0, false⟩, type := "roll", timestamp := 0 })]
    "roll_1" [("requestId", JVal.str "roll_1")] "c1" ⟨0, false⟩ 0
    rfl).2.2.2.2

theorem cleanupSweep_keeps_young (e : PendingRequest) (rid : String)
    (s : Int) (h : ¬(s - e.timestamp > reaperMaxAgeMs)) :
    (cleanupSweep [(rid, e)] s).1 = [(rid, e)] := by
  simp [cleanupSweep, List.filter_cons, h]

theorem prtAtTimer_young (t0 d : Nat) (hd : d ≤ 30000) (rid : String)
    (e : PendingRequest) (hts : e.timestamp = (t0 : Int)) :
    prtAtTimer t0 d [(rid, e)] = [(rid, e)] := by
  unfold prtAtTimer
  have hall : ∀ s ∈ sweepTimes t0 d, s < t0 + d := by
    intro s hs
    unfold sweepTimes at hs
    rw [List.mem_filter] at hs
    simpa using hs.2
  revert hall
  generalize sweepTimes t0 d = l
  induction l with
  | nil => intro _; rfl
  | cons s rest ih =>
    intro hall
    have hs : s < t0 + d := hall s (by simp)
    have harith : ¬(Int.ofNat s - e.timestamp > reaperMaxAgeMs) := by
      rw [hts]
      unfold reaperMaxAgeMs
      have : s < t0 + 30000 := lt_of_lt_of_le hs (by omega)
      simp only [Int.ofNat_eq_coe]
      omega
    rw [List.foldl_cons, cleanupSweep_keeps_young e rid _ harith]
    exact ih (fun x hx => hall x (by simp [hx]))

/-- C2 (amended): when a peer never responds, the per-request timer
(default duration 10 s, `config.timeout` overriding it per route) fires on
a table still holding the entry, deletes it and writes 408
`{error:"Request timed out"}` — provided the deadline does not exceed 30 s,
so that no periodic cleanup sweep (which silently deletes entries older
than 30 s) precedes the timer.  After the timer the table no longer
contains the requestId. -/
theorem C2_timeout_delivery (prt : PRT) (rid : String) (res : Res)
    (t0 d : Nat) (hd : d ≤ 30000)
    (hhas : mapHas prt rid = true) (hsent : res.headersSent = false) :
    timeoutDuration none = 10000 ∧
    (∀ t : Int, t ≠ 0 → timeoutDuration (some t) = t) ∧
    timeoutCallback prt rid res =
      (mapDelete prt rid,
       some ⟨res.id, 408,
             JVal.obj [("error", JVal.str "Request timed out")]⟩) ∧
    mapHas (mapDelete prt rid) rid = false ∧
    silentPeerOutcome t0 d res =
      some ⟨res.id, 408,
            JVal.obj [("error", JVal.str "Request timed out")]⟩ := by
  have hbody : sanitizeResponse
      (JVal.obj [("error", JVal.str "Request timed out")]) =
      JVal.obj [("error", JVal.str "Request timed out")] := rfl
  refine ⟨rfl, ?_, ?_, mapHas_mapDelete prt rid, ?_⟩
  · intro t ht
    simp [timeoutDuration, ht]
  · simp [timeoutCallback, hhas, safeResponse, hsent, hbody]
  · unfold silentPeerOutcome
    rw [prtAtTimer_young t0 d hd _ _ rfl]
    simp [timeoutCallback, mapHas, safeResponse, hsent, hbody]

/-- Witness for C2 (amended) at the default 10 s deadline. -/
theorem C2_timeout_delivery_witness :
    silentPeerOutcome 0 10000 ⟨0, false⟩ =
      some ⟨0, 408, JVal.obj [("error", JVal.str "Request timed out")]⟩ :=
  (C2_timeout_delivery
    [("roll_5", { res := ⟨0, false⟩, type := "roll", timestamp := 0 })]
    "roll_5" ⟨0, false⟩ 0 10000 (by omega) rfl rfl).2.2.2.2

/-- Counterexample for C2 as stated: with a per-type override of 50 s, the
30 s cleanup sweep silently deletes the entry before the timer fires, and
the caller of a silent peer never receives the 408 response. -/
theorem C2_counterexample :
    silentPeerOutcome 0 50000 ⟨0, false⟩ = none := rfl

/-- C6 (amended): the periodic pending-request sweep runs every 10 s and
deletes exactly the entries older than the fixed 30 s age bound — without
writing anything to the affected HTTP callers (the 408 timeout response is
produced by the per-request timer, not by the sweep). -/
theorem C6_reaper_behavior (prt : PRT) (now : Int) :
    (cleanupSweep prt now).2 = [] ∧
    reaperIntervalMs = 10000 ∧
    ∀ (rid : String) (e : PendingRequest),
      ((rid, e) ∈ (cleanupSweep prt now).1 ↔
        (rid, e) ∈ prt ∧ ¬(now - e.timestamp > reaperMaxAgeMs)) := by
  refine ⟨rfl, rfl, ?_⟩
  intro rid e
  simp [cleanupSweep, List.mem_filter]

/-- Counterexample for C6 as stated: the sweep at time 31001 removes the
expired waiter registered at time 0 but emits no HTTP write at all, so the
expired waiter's caller does not receive the timeout error response from
the sweep. -/
theorem C6_counterexample :
    cleanupSweep
      [("roll_1",
        { res := ⟨0, false⟩, type := "roll",
          timestamp := 0 : PendingRequest })] 31001 = ([], []) := rfl

/-- C5 (amended): every generated correlation ID has the form
`"{type}_{t}"` where `t` is the millisecond wall clock `Date.now()` (not a
nanosecond counter bound to a replica ID), and the table keys stay pairwise
distinct under registration and removal, so two distinct waiters
simultaneously present always have distinct requestIds; distinctness of the
IDs of successive requests is, however, not guaranteed (see the
counterexample). -/
theorem C5_request_ids (type : String) (now : Int) (prt : PRT) (k : String)
    (v : PendingRequest) (h : keysNodup prt) :
    generateRequestId type now = type ++ "_" ++ toString now ∧
    keysNodup (mapSet prt k v) ∧ keysNodup (mapDelete prt k) :=
  ⟨rfl, keysNodup_mapSet prt k v h, keysNodup_mapDelete prt k h⟩

/-- Witness for C5 (amended). -/
theorem C5_request_ids_witness :
    keysNodup (mapSet
      [("roll_4", { res := ⟨0, false⟩, type := "roll",
                    timestamp := 4 : PendingRequest })]
      "roll_5" { res := ⟨1, false⟩, type := "roll", timestamp := 5 }) :=
  (C5_request_ids "roll" 5
    [("roll_4", { res := ⟨0, false⟩, type := "roll", timestamp := 4 })]
    "roll_5" { res := ⟨1, false⟩, type := "roll", timestamp := 5 }
    (by simp [keysNodup])).2.1

/-- The "Local echo" request: `POST /roll` for client `c1` with formula
`1d20` (clientId in the query string, where the route reads it). -/
def rollEchoReq : HttpReq :=
  { query := [("clientId", JVal.str "c1")],
    body := [("formula", JVal.str "1d20")] }

/-- First of two identical `/roll` requests arriving in the same
millisecond (`Date.now() = 5`). -/
def rollFirstResult : RouteResult :=
  createApiRoute rollPostConfig ["c1"] rollEchoReq ⟨0, false⟩ 5 true []

/-- The second request in the same millisecond, registered on the table
left by the first. -/
def rollSecondResult : RouteResult :=
  createApiRoute rollPostConfig ["c1"] rollEchoReq ⟨1, false⟩ 5 true
    rollFirstResult.prt

/-- Counterexample for C5 as stated: two distinct in-flight requests of the
same type in the same millisecond receive the same correlation ID
(`"roll_5"` both times — `Date.now()` is a millisecond wall clock, not a
nanosecond-resolution counter bound to the replica), and the second
registration overwrites the first waiter (the table holds one entry, the
second response handle), so IDs are not unique within the replica's
lifetime. -/
theorem C5_counterexample :
    rollFirstResult.sentMsg.bind (fun m => getField m "requestId")
      = some (JVal.str "roll_5") ∧
    rollSecondResult.sentMsg.bind (fun m => getField m "requestId")
      = some (JVal.str "roll_5") ∧
    rollFirstResult.prt.length = 1 ∧
    rollSecondResult.prt.length = 1 ∧
    (mapGet rollSecondResult.prt "roll_5").map (fun p => p.res.id)
      = some 1 :=
  ⟨rfl, rfl, rfl, rfl, rfl⟩

/-- C7: for every relay request whose target clientId resolves to no
connected client (after the parameter passes extraction, coercion,
validation and the required check), the caller receives 404
`{error:"Invalid client ID"}` and the pending-request table is unchanged —
no waiter is registered, no message is sent and no timer armed. -/
theorem C7_unknown_client (config : ApiRouteConfig) (clients : List String)
    (req : HttpReq) (res : Res) (now : Int) (sendOk : Bool) (prt : PRT)
    (params : JObj) (cid : String)
    (hco : coerceAll (config.requiredParams ++ config.optionalParams)
      (extractParams (config.requiredParams ++ config.optionalParams) req)
        = .ok params)
    (hval : runValidateParams config params req = none)
    (hreq : firstMissingRequired config.requiredParams params = none)
    (hcid : getField params "clientId" = some (JVal.str cid))
    (hmiss : clients.contains cid = false)
    (hsent : res.headersSent = false) :
    createApiRoute config clients req res now sendOk prt =
      ⟨prt,
       some ⟨res.id, 404, JVal.obj [("error", JVal.str "Invalid client ID")]⟩,
       none, none⟩ := by
  have hbody : sanitizeResponse
      (JVal.obj [("error", JVal.str "Invalid client ID")]) =
      JVal.obj [("error", JVal.str "Invalid client ID")] := rfl
  simp only [createApiRoute, hco, hval, hreq, hcid, Option.getD_some,
    ClientManager.getClient, hmiss, Bool.false_eq_true, if_false,
    safeResponse, hsent, hbody]

/-- Witness for C7: `GET /rolls?clientId=cZ` with no peer connected and a
non-empty table. -/
theorem C7_unknown_client_witness :
    createApiRoute rollsGetConfig []
      { query := [("clientId", JVal.str "cZ")] } ⟨0, false⟩ 99 true
      [("roll_1",
        { res := ⟨7, false⟩, type := "roll", timestamp := 0 })] =
      ⟨[("roll_1", { res := ⟨7, false⟩, type := "roll", timestamp := 0 })],
       some ⟨0, 404, JVal.obj [("error", JVal.str "Invalid client ID")]⟩,
       none, none⟩ :=
  C7_unknown_client rollsGetConfig []
    { query := [("clientId", JVal.str "cZ")] } ⟨0, false⟩ 99 true
    [("roll_1", { res := ⟨7, false⟩, type := "roll", timestamp := 0 })]
    [("clientId", JVal.str "cZ")] "cZ" rfl rfl rfl rfl rfl rfl

theorem mapGet_some_mapHas (m : PRT) (k : String) (v : PendingRequest)
    (h : mapGet m k = some v) : mapHas m k = true := by
  induction m with
  | nil => simp [mapGet] at h
  | cons kv rest ih =>
    obtain ⟨k0, v0⟩ := kv
    by_cases hk : (k0 == k) = true
    · simp [mapHas, hk]
    · have hk' : (k0 == k) = false := by simpa using hk
      simp only [mapGet, List.find?, hk'] at h
      simp only [mapHas, List.any_cons, hk', Bool.false_or]
      exact ih (by simpa [mapGet] using h)

theorem getField_buildGenericResponse_other (rid cid : String) (data : JObj)
    (k : String) (hnd : (data.map (·.1)).Nodup)
    (hk1 : (k == "requestId") = false) (hk2 : (k == "clientId") = false) :
    getField (buildGenericResponse rid cid data) k = getField data k := by
  rw [getField_buildGenericResponse rid cid data k hnd]
  rw [if_neg (by simp [hk1])]
  cases h : getField data k <;> simp [Option.orElse, hk2]

/-- C1 (amended): for every recognized request type other than
`download-file`, the generic `t-result` handler is registered (for
`get-sheet` too — its special handler listens on the distinct message type
`get-sheet-response`).  When a `t-result` message arrives whose `requestId`
is registered, the relay responds with status 400 iff the message's
`error` field is truthy (otherwise 200), with body
`{requestId, clientId: pending.clientId || senderId}` plus every other
message field, passed through `sanitizeResponse` (which strips
`privateKey`/`apiKey`/`password` at every depth); a message free of
sensitive keys passes through unchanged.  The entry is then removed. -/
theorem C1_generic_result (t : String) (prt : PRT) (senderId : String)
    (data : JObj) (rid : String) (pending : PendingRequest)
    (ht : t ∈ PENDING_REQUEST_TYPES) (ht2 : t ≠ "download-file")
    (h1 : getField data "requestId" = some (JVal.str rid))
    (h2 : rid ≠ "")
    (h3 : mapGet prt rid = some pending)
    (hnd : (data.map (·.1)).Nodup)
    (hsent : pending.res.headersSent = false) :
    hasGenericHandler t = true ∧
    genericResultHandler prt senderId data =
      (mapDelete prt rid,
       some ⟨pending.res.id,
             (if truthy (getField data "error") then 400 else 200),
             sanitizeResponse (JVal.obj (buildGenericResponse rid
               (jsOrStr pending.clientId senderId) data))⟩) ∧
    mapHas (mapDelete prt rid) rid = false ∧
    getField (buildGenericResponse rid (jsOrStr pending.clientId senderId)
      data) "requestId" = some (JVal.str rid) ∧
    (getField data "clientId" = none →
      getField (buildGenericResponse rid (jsOrStr pending.clientId senderId)
        data) "clientId"
        = some (JVal.str (jsOrStr pending.clientId senderId))) ∧
    (∀ k : String, (k == "requestId") = false → (k == "clientId") = false →
      getField (buildGenericResponse rid (jsOrStr pending.clientId senderId)
        data) k = getField data k) ∧
    (hasSensitiveObj data = false →
      sanitizeResponse (JVal.obj (buildGenericResponse rid
        (jsOrStr pending.clientId senderId) data)) =
      JVal.obj (buildGenericResponse rid
        (jsOrStr pending.clientId senderId) data)) := by
  have hhas : mapHas prt rid = true := mapGet_some_mapHas prt rid pending h3
  have herr : getField (buildGenericResponse rid
      (jsOrStr pending.clientId senderId) data) "error"
      = getField data "error" :=
    getField_buildGenericResponse_other _ _ _ _ hnd (by decide) (by decide)
  refine ⟨?_, ?_, mapHas_mapDelete prt rid, ?_, ?_, ?_, ?_⟩
  · have hsheet : t ≠ "actor-sheet" := by
      intro he
      subst he
      revert ht
      decide
    unfold hasGenericHandler REQUEST_TYPES_WITH_SPECIAL_RESPONSE_HANDLERS
    simp [List.elem_iff, hsheet, ht2]
    simpa using ht
  · simp only [genericResultHandler, h1]
    rw [if_pos (show rid ≠ "" ∧ mapHas prt rid = true from ⟨h2, hhas⟩)]
    rw [h3]
    simp only [safeResponse, hsent, Bool.false_eq_true, if_false, herr]
  · rw [getField_buildGenericResponse _ _ _ _ hnd]
    rw [if_pos (by simp)]
  · intro hnone
    rw [getField_buildGenericResponse _ _ _ _ hnd]
    rw [if_neg (by decide)]
    simp [hnone, Option.orElse]
  · intro k hk1 hk2
    exact getField_buildGenericResponse_other _ _ _ _ hnd hk1 hk2
  · intro hclean
    have hresp := hasSensitiveObj_buildGenericResponse rid
      (jsOrStr pending.clientId senderId) data hclean
    exact sanitizeResponse_of_clean _ (by simpa [hasSensitive] using hresp)

/-- Witness for C1 (amended): the local-echo exchange. -/
theorem C1_generic_result_witness :
    genericResultHandler
      [("roll_5",
        { res := ⟨0, false⟩, type := "roll", clientId := some "c1",
          timestamp := 0 })]
      "c1" [("requestId", JVal.str "roll_5"), ("result", JVal.num 17)] =
      (mapDelete
        [("roll_5",
          { res := ⟨0, false⟩, type := "roll", clientId := some "c1",
            timestamp := 0 })] "roll_5",
       some ⟨0,
             (if truthy (getField
                 [("requestId", JVal.str "roll_5"), ("result", JVal.num 17)]
                 "error") then 400 else 200),
             sanitizeResponse (JVal.obj (buildGenericResponse "roll_5"
               (jsOrStr (some "c1") "c1")
               [("requestId", JVal.str "roll_5"),
                ("result", JVal.num 17)]))⟩) :=
  (C1_generic_result "roll"
    [("roll_5",
      { res := ⟨0, false⟩, type := "roll", clientId := some "c1",
        timestamp := 0 })]
    "c1" [("requestId", JVal.str "roll_5"), ("result", JVal.num 17)]
    "roll_5"
    { res := ⟨0, false⟩, type := "roll", clientId := some "c1",
      timestamp := 0 }
    (by decide) (by decide) rfl (by decide) rfl (by decide) rfl).2.1

/-- The peer message used to refute C1 as stated: it carries a (falsy)
`error` field and an `apiKey` field. -/
def c1CounterMessage : JObj :=
  [("requestId", JVal.str "roll_5"), ("error", JVal.bool false),
   ("apiKey", JVal.str "secret"), ("result", JVal.num 17)]

/-- Counterexample for C1 as stated: the message carries an `error` field
(value `false`), yet the relay answers 200, not 400 (the code tests JS
truthiness of `error`, not presence); and the `apiKey` field is not passed
through unchanged — sanitization removes it from the body. -/
theorem C1_counterexample :
    genericResultHandler
      [("roll_5",
        { res := ⟨0, false⟩, type := "roll", clientId := some "c1",
          timestamp := 0 })]
      "c1" c1CounterMessage =
      ([],
       some ⟨0, 200,
             JVal.obj [("requestId", JVal.str "roll_5"),
                       ("clientId", JVal.str "c1"),
                       ("error", JVal.bool false),
                       ("result", JVal.num 17)]⟩) ∧
    getField c1CounterMessage "error" = some (JVal.bool false) ∧
    getField c1CounterMessage "apiKey" = some (JVal.str "secret") :=
  ⟨rfl, rfl, rfl⟩

/-- Counterexample for C4 as stated: `POST /roll` with
`{clientId:"c1", formula:"1d20"}` supplied only in the body is rejected
with 400 `'clientId' is required` — nothing is relayed and no waiter is
registered — because the route declares `clientId` with source `query`
only. -/
theorem C4_counterexample :
    createApiRoute rollPostConfig ["c1"]
      { body := [("clientId", JVal.str "c1"), ("formula", JVal.str "1d20")] }
      ⟨0, false⟩ 5 true [] =
      ⟨[],
       some ⟨0, 400,
             JVal.obj [("error",
                        JVal.str "\x27clientId\x27 is required")]⟩,
       none, none⟩ := rfl

/-- C4 (amended): `createApiRoute` accepts `clientId` only from the
sources declared in the route's config; for `POST /roll` that is the query
string alone.  With `clientId` in the query and `formula` in the body the
request is relayed to the peer registered as `c1` (waiter registered,
message sent, default 10 s timer armed) and the peer echoing
`{type:"roll-result", requestId, result:17}` completes the call with 200
`{requestId, clientId:"c1", result:17}`; with `clientId` supplied only in
the body, the route responds 400 `'clientId' is required`. -/
theorem C4_clientId_query_only :
    rollFirstResult.write = none ∧
    rollFirstResult.sentMsg =
      some [("type", JVal.str "roll"), ("requestId", JVal.str "roll_5"),
            ("formula", JVal.str "1d20"), ("data", JVal.obj [])] ∧
    rollFirstResult.timerMs = some (timeoutDuration none) ∧
    timeoutDuration none = 10000 ∧
    mapGet rollFirstResult.prt "roll_5" =
      some { res := ⟨0, false⟩, type := "roll", clientId := some "c1",
             timestamp := 5 } ∧
    genericResultHandler rollFirstResult.prt "c1"
      [("requestId", JVal.str "roll_5"), ("result", JVal.num 17)] =
      ([],
       some ⟨0, 200,
             JVal.obj [("requestId", JVal.str "roll_5"),
                       ("clientId", JVal.str "c1"),
                       ("result", JVal.num 17)]⟩) ∧
    (createApiRoute rollPostConfig ["c1"]
      { body := [("clientId", JVal.str "c1"), ("formula", JVal.str "1d20")] }
      ⟨0, false⟩ 5 true []).write =
      some ⟨0, 400,
            JVal.obj [("error", JVal.str "\x27clientId\x27 is required")]⟩ :=
  ⟨rfl, rfl, rfl, rfl, rfl, rfl, rfl⟩

/-- C9 (amended): for a `download-file-result` without a truthy error whose
`fileData` is a data-URL, `request.format || 'binary'` selects the shape:
when it yields "binary" or "raw" (in particular when `format` is absent or
empty), the relay strips the base64 header, sets Content-Type to the
reported mimeType, Content-Disposition to an attachment with the reported
filename, Content-Length to the decoded byte count, and writes exactly the
decoded bytes; when the request carries any other non-empty format it
returns the 200 JSON body with the data URL intact.  The entry is removed
first in both cases. -/
theorem C9_download_file (prt : PRT) (senderId rid : String) (data : JObj)
    (request : PendingRequest) (fd b64 mt fn pth : String)
    (h1 : getField data "requestId" = some (JVal.str rid))
    (h2 : rid ≠ "")
    (h3 : mapGet prt rid = some request)
    (herr : getField data "error" = none)
    (hfd : getField data "fileData" = some (JVal.str fd))
    (hsplit : (splitComma fd)[1]? = some b64)
    (hmt : getField data "mimeType" = some (JVal.str mt)) (hmtne : mt ≠ "")
    (hfn : getField data "filename" = some (JVal.str fn))
    (hpath : getField data "path" = some (JVal.str pth))
    (hsent : request.res.headersSent = false) :
    (jsOrStr request.format "binary" = "binary" ∨
        jsOrStr request.format "binary" = "raw" →
      downloadFileResultHandler prt senderId data =
        (mapDelete prt rid,
         some (.binaryOut request.res.id mt
           ("attachment; filename=\x22" ++ fn ++ "\x22")
           (base64Decode b64).length (base64Decode b64)))) ∧
    (∀ f : String, request.format = some f → f ≠ "" → f ≠ "binary" →
        f ≠ "raw" →
      downloadFileResultHandler prt senderId data =
        (mapDelete prt rid,
         some (.jsonOut ⟨request.res.id, 200,
           JVal.obj [("clientId", JVal.str senderId),
                     ("requestId", JVal.str rid),
                     ("success", JVal.bool true),
                     ("path", JVal.str pth),
                     ("filename", JVal.str fn),
                     ("mimeType", JVal.str mt),
                     ("fileData", JVal.str fd),
                     ("size", JVal.num (base64Decode b64).length)]⟩))) := by
  have hhas : mapHas prt rid = true := mapGet_some_mapHas prt rid request h3
  have hmain : downloadFileResultHandler prt senderId data =
      (mapDelete prt rid, downloadFileContinue request senderId rid data) := by
    simp only [downloadFileResultHandler, h1]
    rw [if_pos (show rid ≠ "" ∧ mapHas prt rid = true from ⟨h2, hhas⟩)]
    rw [h3, herr]
  have hct : jsOrDefaultHeader (getField data "mimeType")
      "application/octet-stream" = mt := by
    rw [hmt]
    simp [jsOrDefaultHeader, jvalTruthy, hmtne, jsToString]
  have hdisp : jsTemplate (getField data "filename") = fn := by
    rw [hfn]
    rfl
  constructor
  · intro hf
    rw [hmain]
    have hcond : (jsOrStr request.format "binary" == "binary"
        || jsOrStr request.format "binary" == "raw") = true := by
      rcases hf with hf | hf <;> rw [hf] <;> decide
    simp only [downloadFileContinue, hcond, if_true, hfd, hsplit, hct, hdisp]
  · intro f hfmt hne hb hr
    rw [hmain]
    have hfm : jsOrStr request.format "binary" = f := by
      rw [hfmt]
      simp [jsOrStr, hne]
    have hcond : (jsOrStr request.format "binary" == "binary"
        || jsOrStr request.format "binary" == "raw") = false := by
      rw [hfm]
      simp [hb, hr]
    simp only [downloadFileContinue, hcond, Bool.false_eq_true, if_false,
      hfd, hsplit, hpath, hfn, hmt, safeResponse, hsent]
    rfl

/-- Witness for C9 (amended): a JSON-format download. -/
theorem C9_download_file_witness :
    downloadFileResultHandler
      [("download-file_1",
        { res := ⟨0, false⟩, type := "download-file", clientId := some "c1",
          timestamp := 0, format := some "json" })]
      "c1"
      [("requestId", JVal.str "download-file_1"),
       ("path", JVal.str "img/x.png"),
       ("filename", JVal.str "x.png"),
       ("mimeType", JVal.str "image/png"),
       ("fileData", JVal.str "data:image/png;base64,QUJD")] =
      (mapDelete
        [("download-file_1",
          { res := ⟨0, false⟩, type := "download-file",
            clientId := some "c1", timestamp := 0,
            format := some "json" })] "download-file_1",
       some (.jsonOut ⟨0, 200,
         JVal.obj [("clientId", JVal.str "c1"),
                   ("requestId", JVal.str "download-file_1"),
                   ("success", JVal.bool true),
                   ("path", JVal.str "img/x.png"),
                   ("filename", JVal.str "x.png"),
                   ("mimeType", JVal.str "image/png"),
                   ("fileData", JVal.str "data:image/png;base64,QUJD"),
                   ("size", JVal.num (base64Decode "QUJD").length)]⟩)) :=
  (C9_download_file
    [("download-file_1",
      { res := ⟨0, false⟩, type := "download-file", clientId := some "c1",
        timestamp := 0, format := some "json" })]
    "c1" "download-file_1"
    [("requestId", JVal.str "download-file_1"),
     ("path", JVal.str "img/x.png"),
     ("filename", JVal.str "x.png"),
     ("mimeType", JVal.str "image/png"),
     ("fileData", JVal.str "data:image/png;base64,QUJD")]
    { res := ⟨0, false⟩, type := "download-file", clientId := some "c1",
      timestamp := 0, format := some "json" }
    "data:image/png;base64,QUJD" "QUJD" "image/png" "x.png" "img/x.png"
    rfl (by decide) rfl rfl rfl rfl rfl (by decide) rfl rfl rfl).2
    "json" rfl (by decide) (by decide) (by decide)

/-- Counterexample for C9 as stated: a request whose `format` is absent is
not "binary" or "raw", so the claim's "otherwise" branch promises a JSON
body with the data URL intact — but the code defaults the format to
"binary" and writes the decoded bytes. -/
theorem C9_counterexample :
    downloadFileResultHandler
      [("download-file_1",
        { res := ⟨0, false⟩, type := "download-file", clientId := some "c1",
          timestamp := 0 : PendingRequest })]
      "c1"
      [("requestId", JVal.str "download-file_1"),
       ("fileData", JVal.str "data:image/png;base64,QUJD"),
       ("filename", JVal.str "x.png"),
       ("mimeType", JVal.str "image/png")] =
      ([],
       some (.binaryOut 0 "image/png"
         "attachment; filename=\x22x.png\x22" 3 [65, 66, 67])) ∧
    ({ res := ⟨0, false⟩, type := "download-file", clientId := some "c1",
       timestamp := 0 : PendingRequest }).format = none :=
  ⟨rfl, rfl⟩

theorem findIndexJs_eq_none_of_all {α : Type} (p : α → Bool) (l : List α)
    (h : ∀ x ∈ l, p x = false) : findIndexJs l p = none := by
  induction l with
  | nil => rfl
  | cons x rest ih =>
    rw [findIndexJs, if_neg (by simp [h x (by simp)])]
    rw [ih (fun y hy => h y (by simp [hy]))]
    rfl

theorem set_findIndex_map_id (store : List ChatData) (m : ChatData) :
    m.id ∈ store.map (·.id) →
    ∃ i, findIndexJs store (fun x => x.id == m.id) = some i ∧
      (store.set i m).map (·.id) = store.map (·.id) := by
  induction store with
  | nil => simp
  | cons x rest ih =>
    intro hmem
    by_cases hx : x.id = m.id
    · refine ⟨0, ?_, ?_⟩
      · rw [findIndexJs, if_pos (by simp [hx])]
      · simp [hx]
    · have hmem' : m.id ∈ rest.map (·.id) := by
        simp only [List.map_cons, List.mem_cons] at hmem
        rcases hmem with h | h
        · exact absurd h.symm hx
        · simpa using h
      obtain ⟨i, hfi, hset⟩ := ih hmem'
      refine ⟨i + 1, ?_, ?_⟩
      · rw [findIndexJs, if_neg (by simp [hx]), hfi]
        rfl
      · simp [hset]

theorem setRoll_findIndex_map_id (store : List RollData) (r : RollData) :
    r.id ∈ store.map (·.id) →
    ∃ i, findIndexJs store (fun x => x.id == r.id) = some i ∧
      (store.set i r).map (·.id) = store.map (·.id) := by
  induction store with
  | nil => simp
  | cons x rest ih =>
    intro hmem
    by_cases hx : x.id = r.id
    · refine ⟨0, ?_, ?_⟩
      · rw [findIndexJs, if_pos (by simp [hx])]
      · simp [hx]
    · have hmem' : r.id ∈ rest.map (·.id) := by
        simp only [List.map_cons, List.mem_cons] at hmem
        rcases hmem with h | h
        · exact absurd h.symm hx
        · simpa using h
      obtain ⟨i, hfi, hset⟩ := ih hmem'
      refine ⟨i + 1, ?_, ?_⟩
      · rw [findIndexJs, if_neg (by simp [hx]), hfi]
        rfl
      · simp [hset]

theorem storeChatMessage_length (store : List ChatData) (m : ChatData)
    (maxS : Nat) (h : store.length ≤ maxS) :
    (storeChatMessage store m maxS).length ≤ maxS := by
  unfold storeChatMessage
  cases hfi : findIndexJs store (fun x => x.id == m.id) with
  | some i =>
    dsimp only
    split
    · exact List.length_take_le _ _
    · next hgt =>
      simp only [List.length_set] at hgt ⊢
      omega
  | none =>
    dsimp only
    split
    · exact List.length_take_le _ _
    · next hgt =>
      simp only [List.length_cons] at hgt ⊢
      omega

theorem storeRoll_length (store : List RollData) (r : RollData)
    (h : store.length ≤ MAX_ROLLS_STORED) :
    (storeRoll store r).length ≤ MAX_ROLLS_STORED := by
  unfold storeRoll
  cases hfi : findIndexJs store (fun x => x.id == r.id) with
  | some i =>
    dsimp only
    split
    · exact List.length_take_le _ _
    · next hgt =>
      simp only [List.length_set] at hgt ⊢
      omega
  | none =>
    dsimp only
    split
    · exact List.length_take_le _ _
    · next hgt =>
      simp only [List.length_cons] at hgt ⊢
      omega

theorem storeChatMessage_fresh_head (store : List ChatData) (m : ChatData)
    (maxS : Nat) (hfresh : ∀ e ∈ store, e.id ≠ m.id) (hmax : 0 < maxS) :
    (storeChatMessage store m maxS).head? = some m := by
  unfold storeChatMessage
  rw [findIndexJs_eq_none_of_all _ _ (fun x hx => by simp [hfresh x hx])]
  dsimp only
  obtain ⟨n, rfl⟩ : ∃ n, maxS = n + 1 := ⟨maxS - 1, by omega⟩
  split
  · rfl
  · rfl

theorem storeRoll_fresh_head (store : List RollData) (r : RollData)
    (hfresh : ∀ e ∈ store, e.id ≠ r.id) :
    (storeRoll store r).head? = some r := by
  unfold storeRoll
  rw [findIndexJs_eq_none_of_all _ _ (fun x hx => by simp [hfresh x hx])]
  dsimp only
  split
  · rfl
  · rfl

theorem storeChatMessage_replace (store : List ChatData) (m : ChatData)
    (maxS : Nat) (hmem : m.id ∈ store.map (·.id))
    (hlen : store.length ≤ maxS) :
    (storeChatMessage store m maxS).map (·.id) = store.map (·.id) ∧
    (storeChatMessage store m maxS).length = store.length := by
  obtain ⟨i, hfi, hset⟩ := set_findIndex_map_id store m hmem
  unfold storeChatMessage
  rw [hfi]
  dsimp only
  rw [if_neg (by simp only [List.length_set, gt_iff_lt]; omega)]
  exact ⟨hset, by simp⟩

theorem storeRoll_replace (store : List RollData) (r : RollData)
    (hmem : r.id ∈ store.map (·.id))
    (hlen : store.length ≤ MAX_ROLLS_STORED) :
    (storeRoll store r).map (·.id) = store.map (·.id) ∧
    (storeRoll store r).length = store.length := by
  obtain ⟨i, hfi, hset⟩ := setRoll_findIndex_map_id store r hmem
  unfold storeRoll
  rw [hfi]
  dsimp only
  rw [if_neg (by simp only [List.length_set, gt_iff_lt]; omega)]
  exact ⟨hset, by simp⟩

theorem storeChatMessage_nodup (store : List ChatData) (m : ChatData)
    (maxS : Nat) (hnd : (store.map (·.id)).Nodup)
    (hlen : store.length ≤ maxS) :
    ((storeChatMessage store m maxS).map (·.id)).Nodup := by
  by_cases hmem : m.id ∈ store.map (·.id)
  · rw [(storeChatMessage_replace store m maxS hmem hlen).1]
    exact hnd
  · have hfresh : ∀ x ∈ store, (x.id == m.id) = false := by
      intro x hx
      cases h : x.id == m.id with
      | false => rfl
      | true =>
        exact absurd (eq_of_beq h ▸ List.mem_map_of_mem (·.id) hx) hmem
    unfold storeChatMessage
    rw [findIndexJs_eq_none_of_all _ _ hfresh]
    dsimp only
    have hndcons : ((m :: store).map (·.id)).Nodup := by
      simp only [List.map_cons, List.nodup_cons]
      exact ⟨hmem, hnd⟩
    split
    · rw [List.map_take]
      exact hndcons.sublist (List.take_sublist _ _)
    · exact hndcons

theorem storeRoll_nodup (store : List RollData) (r : RollData)
    (hnd : (store.map (·.id)).Nodup)
    (hlen : store.length ≤ MAX_ROLLS_STORED) :
    ((storeRoll store r).map (·.id)).Nodup := by
  by_cases hmem : r.id ∈ store.map (·.id)
  · rw [(storeRoll_replace store r hmem hlen).1]
    exact hnd
  · have hfresh : ∀ x ∈ store, (x.id == r.id) = false := by
      intro x hx
      cases h : x.id == r.id with
      | false => rfl
      | true =>
        exact absurd (eq_of_beq h ▸ List.mem_map_of_mem (·.id) hx) hmem
    unfold storeRoll
    rw [findIndexJs_eq_none_of_all _ _ hfresh]
    dsimp only
    have hndcons : ((r :: store).map (·.id)).Nodup := by
      simp only [List.map_cons, List.nodup_cons]
      exact ⟨hmem, hnd⟩
    split
    · rw [List.map_take]
      exact hndcons.sublist (List.take_sublist _ _)
    · exact hndcons

theorem jsSliceTo_spec {a : Type} (l l2 : List a) (f : a → String) (e : Int)
    (he : 0 ≤ e) (hperm : l.Perm l2) (hnd : (l2.map f).Nodup) :
    (jsSliceTo l e).length ≤ e.toNat ∧ ((jsSliceTo l e).map f).Nodup := by
  unfold jsSliceTo
  rw [if_neg (by omega)]
  constructor
  · exact List.length_take_le _ _
  · rw [List.map_take]
    exact ((hperm.map f).nodup_iff.mpr hnd).sublist (List.take_sublist _ _)

theorem chatMessagesHandler_spec (store : List ChatData) (lim : Int)
    (sort order : String) (hlim : 0 ≤ lim)
    (hnd : (store.map (·.id)).Nodup) :
    (chatMessagesHandler store lim sort order).length ≤ lim.toNat ∧
    ((chatMessagesHandler store lim sort order).map (·.id)).Nodup := by
  unfold chatMessagesHandler
  dsimp only
  refine jsSliceTo_spec _ store _ lim hlim ?_ hnd
  split
  · exact List.mergeSort_perm store _
  · exact List.Perm.refl store

theorem rollsHandler_spec (rstore : List RollData) (dlim : Option Int)
    (hdl : 0 ≤ rollsLimit dlim) (hnd : (rstore.map (·.id)).Nodup) :
    (rollsHandler rstore dlim).length ≤ (rollsLimit dlim).toNat ∧
    ((rollsHandler rstore dlim).map (·.id)).Nodup := by
  unfold rollsHandler
  exact jsSliceTo_spec _ rstore _ _ hdl (List.Perm.refl rstore) hnd

/-- C10: on the peer module, the chat store never exceeds the configured
maximum (default 100) and the roll store never exceeds 20; both stores are
newest-first (a fresh-id entry is prepended); an entry whose id is already
stored replaces the existing entry in place — same length, same id
sequence — instead of adding a duplicate; stored ids stay pairwise
distinct; and the `chat-messages` and `rolls` handlers return at most the
requested limit of entries with pairwise-distinct ids. -/
theorem C10_peer_collections
    (store : List ChatData) (m : ChatData) (maxS : Nat)
    (rstore : List RollData) (r : RollData)
    (lim : Int) (sort order : String) (dlim : Option Int)
    (hcs : store.length ≤ maxS) (hmax : 0 < maxS)
    (hrs : rstore.length ≤ MAX_ROLLS_STORED)
    (hlim : 0 ≤ lim) (hdl : 0 ≤ rollsLimit dlim)
    (hnd : (store.map (·.id)).Nodup)
    (hrnd : (rstore.map (·.id)).Nodup) :
    MAX_CHAT_MESSAGES_STORED = 100 ∧ chatMaxStored none = 100 ∧
    MAX_ROLLS_STORED = 20 ∧
    (storeChatMessage store m maxS).length ≤ maxS ∧
    (storeRoll rstore r).length ≤ MAX_ROLLS_STORED ∧
    ((∀ e ∈ store, e.id ≠ m.id) →
      (storeChatMessage store m maxS).head? = some m) ∧
    ((∀ e ∈ rstore, e.id ≠ r.id) → (storeRoll rstore r).head? = some r) ∧
    (m.id ∈ store.map (·.id) →
      (storeChatMessage store m maxS).map (·.id) = store.map (·.id) ∧
      (storeChatMessage store m maxS).length = store.length) ∧
    (r.id ∈ rstore.map (·.id) →
      (storeRoll rstore r).map (·.id) = rstore.map (·.id) ∧
      (storeRoll rstore r).length = rstore.length) ∧
    ((storeChatMessage store m maxS).map (·.id)).Nodup ∧
    ((storeRoll rstore r).map (·.id)).Nodup ∧
    (chatMessagesHandler store lim sort order).length ≤ lim.toNat ∧
    ((chatMessagesHandler store lim sort order).map (·.id)).Nodup ∧
    (rollsHandler rstore dlim).length ≤ (rollsLimit dlim).toNat ∧
    ((rollsHandler rstore dlim).map (·.id)).Nodup := by
  obtain ⟨hch1, hch2⟩ := chatMessagesHandler_spec store lim sort order hlim hnd
  obtain ⟨hrh1, hrh2⟩ := rollsHandler_spec rstore dlim hdl hrnd
  exact ⟨rfl, rfl, rfl,
    storeChatMessage_length store m maxS hcs,
    storeRoll_length rstore r hrs,
    fun hfresh => storeChatMessage_fresh_head store m maxS hfresh hmax,
    fun hfresh => storeRoll_fresh_head rstore r hfresh,
    fun hmem => storeChatMessage_replace store m maxS hmem hcs,
    fun hmem => storeRoll_replace rstore r hmem hrs,
    storeChatMessage_nodup store m maxS hnd hcs,
    storeRoll_nodup rstore r hrnd hrs,
    hch1, hch2, hrh1, hrh2⟩

/-- Witness for C10 at a small concrete store. -/
theorem C10_peer_collections_witness :
    (storeChatMessage [⟨"a", 1, []⟩] ⟨"b", 2, []⟩ 100).length ≤ 100 ∧
    ((storeRoll ([] : List RollData) ⟨"c", 3, []⟩).map (·.id)).Nodup :=
  ⟨(C10_peer_collections [⟨"a", 1, []⟩] ⟨"b", 2, []⟩ 100 [] ⟨"c", 3, []⟩
      5 "timestamp" "desc" none (by decide) (by decide) (by decide)
      (by decide) (by decide) (by simp) (by simp)).2.2.2.1,
   (C10_peer_collections [⟨"a", 1, []⟩] ⟨"b", 2, []⟩ 100 [] ⟨"c", 3, []⟩
      5 "timestamp" "desc" none (by decide) (by decide) (by decide)
      (by decide) (by decide) (by simp) (by simp)).2.2.2.2.2.2.2.2.2.2.1⟩
